import Mathlib

set_option autoImplicit false

/-!
Shallow embedding of `crates/ra_ide/src/diagnostics.rs`: the diagnostics
collection and fix-synthesis pipeline.  Pure data is translated directly from
the source; the helper crates that the module calls into (`ra_text_edit`,
`ra_syntax::ast`/`algo`, `hir`) are not part of the sources and are modelled
from the specification, each such definition is marked in its doc comment.
-/

namespace RaIde

/-- Half-open text range over the characters of one file, `[start, stop)`.
Translated from `ra_syntax::TextRange` as used by `diagnostics.rs`. -/
structure TextRange where
  start : Nat
  stop : Nat
deriving DecidableEq, Repr

/-- One atomic edit: delete the range `delete` and insert `insert` at its
start.  Mirrors `ra_text_edit::AtomTextEdit`. -/
structure AtomTextEdit where
  delete : TextRange
  insert : String
deriving DecidableEq, Repr

/-- An ordered sequence of atomic edits over one file.  Mirrors
`ra_text_edit::TextEdit`. -/
structure TextEdit where
  atoms : List AtomTextEdit
deriving DecidableEq, Repr

/-- Modelled from the spec: `TextEdit::delete` builds a one-atom edit that
removes a range. -/
def TextEdit.delete (range : TextRange) : TextEdit :=
  ⟨[⟨range, ""⟩]⟩

/-- Modelled from the spec: `TextEdit::replace` is delete-then-insert at the
same start offset, one atom. -/
def TextEdit.replace (range : TextRange) (text : String) : TextEdit :=
  ⟨[⟨range, text⟩]⟩

/-- A builder is the list of atoms pushed so far, in push order.  Mirrors
`ra_text_edit::TextEditBuilder`. -/
abbrev TextEditBuilder := List AtomTextEdit

/-- Modelled from the spec: pushing a pure deletion onto a builder. -/
def TextEditBuilder.delete (b : TextEditBuilder) (range : TextRange) : TextEditBuilder :=
  b ++ [⟨range, ""⟩]

/-- Modelled from the spec: pushing a pure insertion onto a builder. -/
def TextEditBuilder.insert (b : TextEditBuilder) (offset : Nat) (text : String) : TextEditBuilder :=
  b ++ [⟨⟨offset, offset⟩, text⟩]

/-- Strict ordering of atoms by `(delete.start, delete.stop)`. -/
def atomKeyLt (a b : AtomTextEdit) : Bool :=
  decide (a.delete.start < b.delete.start ∨
    (a.delete.start = b.delete.start ∧ a.delete.stop < b.delete.stop))

/-- Stable insertion into a key-sorted atom list: an atom goes after all
already-present atoms whose key is not greater. -/
def insertAtom (x : AtomTextEdit) : List AtomTextEdit → List AtomTextEdit
  | [] => [x]
  | y :: ys => if atomKeyLt x y then x :: y :: ys else y :: insertAtom x ys

/-- Modelled from the spec: `TextEditBuilder::finish` returns the pushed
atoms stably sorted by position (the spec's `TextEdit` invariant: atoms are
listed in ascending order of their ranges). -/
def TextEditBuilder.finish (b : TextEditBuilder) : TextEdit :=
  ⟨b.foldl (fun acc x => insertAtom x acc) []⟩

/-- Replays sorted atoms left to right: emits the untouched text between the
cursor and the next deleted range, then the insertion, then continues after
the deleted range.  Offsets are interpreted against the original text. -/
def applyAtomsFrom (text : List Char) (cursor : Nat) : List AtomTextEdit → List Char
  | [] => text.drop cursor
  | a :: rest =>
      (text.take a.delete.start).drop cursor ++ a.insert.data ++
        applyAtomsFrom text a.delete.stop rest

/-- Modelled from the spec: applying a `TextEdit` to a string replays the
atoms in ascending order, each against the original offsets. -/
def TextEdit.apply (e : TextEdit) (text : String) : String :=
  ⟨applyAtomsFrom text.data 0 e.atoms⟩

/-- Diagnostic severity, translated from `diagnostics.rs` (`enum Severity`). -/
inductive Severity
  | Error
  | WeakWarning
deriving DecidableEq, Repr

/-- A file-system operation requested by a fix.  Mirrors
`ra_ide::FileSystemEdit::CreateFile`; the relative path is kept as its list
of components. -/
inductive FileSystemEdit
  | createFile (source_root : Nat) (path : List String)
deriving DecidableEq, Repr

/-- A text edit targeted at one file.  Mirrors `ra_ide::SourceFileEdit`. -/
structure SourceFileEdit where
  file_id : Nat
  edit : TextEdit
deriving DecidableEq, Repr

/-- A fix: coordinated per-file text edits plus file-system operations.
Mirrors `ra_ide::SourceChange`. -/
structure SourceChange where
  label : String
  source_file_edits : List SourceFileEdit
  file_system_edits : List FileSystemEdit
  cursor_position : Option Nat
deriving DecidableEq, Repr

/-- Modelled from the spec: `SourceChange::source_file_edit`, a change with a
single per-file text edit and nothing else. -/
def SourceChange.source_file_edit (label : String) (sfe : SourceFileEdit) : SourceChange :=
  ⟨label, [sfe], [], none⟩

/-- Modelled from the spec: `SourceChange::source_file_edit_from`, same as
`source_file_edit` but taking file id and edit separately. -/
def SourceChange.source_file_edit_from (label : String) (file_id : Nat) (edit : TextEdit) :
    SourceChange :=
  ⟨label, [⟨file_id, edit⟩], [], none⟩

/-- Modelled from the spec: `SourceChange::file_system_edit`, a change with a
single file-system operation and no text edits. -/
def SourceChange.file_system_edit (label : String) (fse : FileSystemEdit) : SourceChange :=
  ⟨label, [], [fse], none⟩

/-- A reported problem, translated from `ra_ide::Diagnostic` as produced by
`diagnostics.rs`: range (original-file coordinates), message, severity and an
optional fix. -/
structure Diagnostic where
  range : TextRange
  message : String
  severity : Severity
  fix : Option SourceChange
deriving DecidableEq, Repr

/-- Token kinds the scanners inspect.  `selfKw` stands for the token
`T![self]`; every other kind is collapsed into `identKind`/`otherKind`. -/
inductive SyntaxKind
  | selfKw
  | identKind
  | otherKind
deriving DecidableEq, Repr

/-- Modelled from the spec: the slice of an `ast::PathSegment` the self-case
helper looks at, namely `first_child_or_token()?.kind()` (`none` when the
segment has no children). -/
structure PathSegment where
  firstChildOrTokenKind : Option SyntaxKind
deriving DecidableEq, Repr

/-- Modelled from the spec: the slice of an `ast::Path` used by the scanners:
its (optional) final segment. -/
structure UsePath where
  segment : Option PathSegment
deriving DecidableEq, Repr

/-- Modelled from the spec: what the self-case helper reads off the use
tree's parent node (the enclosing `ast::UseTreeList` node):
`prev_sibling_or_token()?.text_range().start()` — the start of the `::`
separator token when present — and `text_range().end()`. -/
structure UseTreeParent where
  prevSiblingOrTokenStart : Option Nat
  stop : Nat
deriving DecidableEq, Repr

/-- Modelled from the spec: the slice of an `ast::UseTree` the scanner needs:
its rendered text, its optional parent node, and its optional path. -/
structure UseTree where
  text : String
  parent : Option UseTreeParent
  path : Option UsePath
deriving DecidableEq, Repr

/-- Modelled from the spec: an `ast::UseTreeList` node, the bracketed group
of a use statement: its entries and its own text range. -/
structure UseTreeList where
  useTrees : List UseTree
  range : TextRange
deriving DecidableEq, Repr

/-- Modelled from the spec: an `ast::RecordField` initializer entry: its
optional field name (`name_ref`, rendered text), optional value expression
(rendered text) and text range.  A tuple-index field such as `0: 0` appears
with name text `0`; a shorthand entry lacks one of the two children. -/
structure RecordField where
  name_ref : Option String
  expr : Option String
  range : TextRange
deriving DecidableEq, Repr

/-- Modelled from the spec: an `ast::RecordFieldList`.  The struct-update
(`..expr`) entry is a separate child of the list, not one of `fields`, so it
is carried apart from the field entries. -/
structure RecordFieldList where
  fields : List RecordField
  spread : Option String
deriving DecidableEq, Repr

/-- Modelled from the spec: an `ast::RecordLit`, a record literal with an
optional field list. -/
structure RecordLit where
  record_field_list : Option RecordFieldList
deriving DecidableEq, Repr

/-- A syntax node, as far as the two structural scanners can observe it: it
either casts to a `UseTreeList`, or to a `RecordLit`, or to neither. -/
inductive SyntaxNode
  | useTreeList (u : UseTreeList)
  | recordLit (r : RecordLit)
  | other
deriving DecidableEq, Repr

/-- Translated from
`text_edit_for_remove_unnecessary_braces_with_self_in_use_statement`: when
the single use tree is a `self` segment, delete from the start of the
preceding separator to the end of the braced list; otherwise (or when any
expected child is absent) decline. -/
def text_edit_for_remove_unnecessary_braces_with_self_in_use_statement
    (single_use_tree : UseTree) : Option TextEdit := do
  let use_tree_list_node ← single_use_tree.parent
  let p ← single_use_tree.path
  let segment ← p.segment
  let kind ← segment.firstChildOrTokenKind
  if kind = SyntaxKind.selfKw then
    let s ← use_tree_list_node.prevSiblingOrTokenStart
    return TextEdit.delete ⟨s, use_tree_list_node.stop⟩
  else
    none

/-- Translated from `check_unnecessary_braces_in_use_statement`: fires on a
use-tree list with exactly one entry; the fix is the self-case edit when it
applies, else delete the braced range and insert the single entry's text at
its start. -/
def check_unnecessary_braces_in_use_statement
    (acc : List Diagnostic) (file_id : Nat) (node : SyntaxNode) : List Diagnostic :=
  match node with
  | SyntaxNode.useTreeList use_tree_list =>
    match use_tree_list.useTrees with
    | [single_use_tree] =>
      let range := use_tree_list.range
      let edit :=
        match text_edit_for_remove_unnecessary_braces_with_self_in_use_statement
            single_use_tree with
        | some e => e
        | none =>
          let to_replace := single_use_tree.text
          TextEditBuilder.finish
            (TextEditBuilder.insert (TextEditBuilder.delete [] range) range.start to_replace)
      acc ++ [{ range := range
                message := "Unnecessary braces in use statement"
                severity := Severity.WeakWarning
                fix := some (SourceChange.source_file_edit ("Remove unnecessary braces")
                  ⟨file_id, edit⟩) }]
    | _ => acc
  | _ => acc

/-- Translated from `check_struct_shorthand_initialization`: for each field
of a record literal that has both a name and a value whose rendered texts
coincide, emit a weak warning whose fix deletes the `name: value` pair and
inserts the bare name at the field's start. -/
def check_struct_shorthand_initialization
    (acc : List Diagnostic) (file_id : Nat) (node : SyntaxNode) : List Diagnostic :=
  match node with
  | SyntaxNode.recordLit record_lit =>
    match record_lit.record_field_list with
    | some record_field_list =>
      record_field_list.fields.foldl (fun acc record_field =>
        match record_field.name_ref, record_field.expr with
        | some field_name, some field_expr =>
          if field_name = field_expr then
            let edit := TextEditBuilder.finish
              (TextEditBuilder.insert (TextEditBuilder.delete [] record_field.range)
                record_field.range.start field_name)
            acc ++ [{ range := record_field.range
                      message := "Shorthand struct initialization"
                      severity := Severity.WeakWarning
                      fix := some (SourceChange.source_file_edit
                        ("Use struct shorthand initialization") ⟨file_id, edit⟩) }]
          else acc
        | _, _ => acc) acc
    | none => acc
  | _ => acc

/-- Modelled from the spec: `hir::Name` — a field name is either an
identifier or a tuple index (the numeral position). -/
inductive Name
  | named (s : String)
  | tupleIndex (i : Nat)
deriving DecidableEq, Repr

/-- Modelled from the spec: `hir::Name::as_tuple_index`. -/
def Name.as_tuple_index : Name → Option Nat
  | Name.named _ => none
  | Name.tupleIndex i => some i

/-- Modelled from the spec: `Name::to_string`, the rendered field name. -/
def Name.render : Name → String
  | Name.named s => s
  | Name.tupleIndex i => toString i

/-- Modelled from the spec: `hir::HirFileId` — the file a diagnostic is
anchored in: either a real on-disk file or a macro-expansion pseudo-file
(which has no independent on-disk existence). -/
inductive HirFileId
  | realFile (id : Nat)
  | expansionFile (id : Nat)
deriving DecidableEq, Repr

/-- Modelled from the spec: the `ast::RecordFieldList` node that
`d.ast(db)` returns for a missing-fields diagnostic, as the fix synthesizer
observes it: its text range (in the coordinates of the file the diagnostic
is anchored in) and its field entries' rendered texts, in order. -/
structure RecordFieldListAst where
  range : TextRange
  fields : List String
deriving DecidableEq, Repr

/-- Modelled from the spec: `RecordFieldList::append_field` appends one
field initializer entry at the end of the list. -/
def RecordFieldListAst.append_field (fl : RecordFieldListAst) (field : String) :
    RecordFieldListAst :=
  ⟨fl.range, fl.fields ++ [field]⟩

/-- Modelled from the spec: rendering a field list back to text — the
existing entries verbatim, comma-separated, inside braces. -/
def RecordFieldListAst.render (fl : RecordFieldListAst) : String :=
  "\x7b" ++ String.intercalate (", ") fl.fields ++ "\x7d"

/-- Modelled from the spec: the structural diff utility
(`ra_syntax::algo::diff` followed by `into_text_edit`): a structural diff
over tree children — identical children produce an empty edit, otherwise the
changed node's whole range is replaced by the rendering of the new node. -/
def structuralDiff (a b : RecordFieldListAst) : TextEdit :=
  if a.fields = b.fields then ⟨[]⟩ else TextEdit.replace a.range b.render

/-- Payload of `hir::diagnostics::UnresolvedModule` as the handler consumes
it: message, reconciled range (`sema.diagnostics_range(d).range`), the real
file resolved by `d.source().file_id.original_file(db)`, and the candidate
module file name. -/
structure UnresolvedModule where
  message : String
  reconciled : TextRange
  original_file : Nat
  candidate : String
deriving DecidableEq, Repr

/-- Payload of `hir::diagnostics::MissingFields`: message, reconciled range,
the file the diagnostic is anchored in (`d.source().file_id`), the record
field list `d.ast(db)` whose range is in that anchor file's coordinates, and
the missing field names. -/
structure MissingFields where
  message : String
  reconciled : TextRange
  anchor_file : HirFileId
  ast : RecordFieldListAst
  missed_fields : List Name
deriving DecidableEq, Repr

/-- Payload of `hir::diagnostics::MissingMatchArms`. -/
structure MissingMatchArms where
  message : String
  reconciled : TextRange
deriving DecidableEq, Repr

/-- Payload of `hir::diagnostics::MissingOkInTailExpr`: the tail expression
node `d.ast(db)` is kept as its rendered text and its range in the anchor
file's coordinates. -/
structure MissingOkInTailExpr where
  message : String
  reconciled : TextRange
  anchor_file : HirFileId
  ast_text : String
  ast_range : TextRange
deriving DecidableEq, Repr

/-- A raw semantic diagnostic as the sink receives it: one registered kind
per constructor, plus `unhandled` for every kind without a registered
handler (which only exposes the message and the reconciled range). -/
inductive HirDiagnostic
  | unresolvedModule (d : UnresolvedModule)
  | missingFields (d : MissingFields)
  | missingMatchArms (d : MissingMatchArms)
  | missingOkInTailExpr (d : MissingOkInTailExpr)
  | unhandled (message : String) (reconciled : TextRange)
deriving DecidableEq, Repr

/-- The database facts the unresolved-module handler queries: the source
root of a file and its path relative to that root, as path components. -/
structure Db where
  file_source_root : Nat → Nat
  file_relative_path : Nat → List String

/-- Modelled from the spec: `RelativePath::parent` — `none` for the empty
path, otherwise the path without its last component. -/
def relativePathParent : List String → Option (List String)
  | [] => none
  | l => some l.dropLast

/-- Translated from the `UnresolvedModule` handler: builds a file-creation
request for the candidate file name joined to the parent directory of the
diagnostic's original file, with `Error` severity. -/
def handleUnresolvedModule (db : Db) (d : UnresolvedModule) : Diagnostic :=
  let original_file := d.original_file
  let source_root := db.file_source_root original_file
  let path := ((relativePathParent (db.file_relative_path original_file)).getD []) ++
    [d.candidate]
  let create_file := FileSystemEdit.createFile source_root path
  let fix := SourceChange.file_system_edit ("Create module") create_file
  { range := d.reconciled, message := d.message, severity := Severity.Error, fix := some fix }

/-- Translated from the `MissingFields` handler: no fix when any missing
field is a tuple index; otherwise append one `field: ()` initializer per
missing field to `d.ast(db)` and structurally diff the result against the
original list.  The edit is attached to the requested `file_id`, but its
offsets come from `d.ast(db)`, i.e. from the anchor file's coordinates. -/
def handleMissingFields (file_id : Nat) (d : MissingFields) : Diagnostic :=
  let fix :=
    if d.missed_fields.any (fun f => (Name.as_tuple_index f).isSome) then
      none
    else
      let field_list := d.missed_fields.foldl
        (fun fl f => RecordFieldListAst.append_field fl (Name.render f ++ ": ()")) d.ast
      let edit := structuralDiff d.ast field_list
      some (SourceChange.source_file_edit_from ("Fill struct fields") file_id edit)
  { range := d.reconciled, message := d.message, severity := Severity.Error, fix := fix }

/-- Translated from the `MissingOkInTailExpr` handler: replace the tail
expression's range (anchor-file coordinates) with `Ok(<original text>)`,
attached to the requested `file_id`. -/
def handleMissingOkInTailExpr (file_id : Nat) (d : MissingOkInTailExpr) : Diagnostic :=
  let replacement := "Ok(" ++ d.ast_text ++ ")"
  let edit := TextEdit.replace d.ast_range replacement
  let fix := SourceChange.source_file_edit_from ("Wrap with ok") file_id edit
  { range := d.reconciled, message := d.message, severity := Severity.Error, fix := some fix }

/-- Translated from the `DiagnosticSink` construction in `diagnostics`: each
registered kind goes to its handler, every other kind to the default
callback (raw message, reconciled range, `Error`, no fix). -/
def sinkHandle (db : Db) (file_id : Nat) : HirDiagnostic → Diagnostic
  | HirDiagnostic.unresolvedModule d => handleUnresolvedModule db d
  | HirDiagnostic.missingFields d => handleMissingFields file_id d
  | HirDiagnostic.missingMatchArms d =>
      { range := d.reconciled, message := d.message, severity := Severity.Error, fix := none }
  | HirDiagnostic.missingOkInTailExpr d => handleMissingOkInTailExpr file_id d
  | HirDiagnostic.unhandled message reconciled =>
      { range := reconciled, message := message, severity := Severity.Error, fix := none }

/-- One parse error, as `parse.errors()` exposes it: its range (always in
the original file's own coordinates) and its rendered message. -/
structure SyntaxError where
  range : TextRange
  rendered : String
deriving DecidableEq, Repr

/-- The module a file resolves to (`sema.to_module_def`), reduced to what
the collector consumes: the ordered stream of raw semantic diagnostics that
`m.diagnostics(db, sink)` feeds to the sink. -/
structure ModuleDef where
  hir_diagnostics : List HirDiagnostic
deriving DecidableEq, Repr

/-- The immutable snapshot one collection pass reads: the file's parse
errors, the parsed tree's descendants in traversal order, and the resolved
module (if any). -/
structure Snapshot where
  parse_errors : List SyntaxError
  descendants : List SyntaxNode
  to_module_def : Option ModuleDef
deriving DecidableEq, Repr

/-- Translated from `diagnostics`: parse errors first (message prefixed
`Syntax Error: `, severity `Error`, no fix), then both structural scanners
over every descendant in one traversal, then the semantic diagnostics
through the sink in emission order. -/
def diagnostics (db : Db) (snap : Snapshot) (file_id : Nat) : List Diagnostic :=
  let res : List Diagnostic := snap.parse_errors.map (fun err =>
    { range := err.range, message := "Syntax Error: " ++ err.rendered,
      severity := Severity.Error, fix := none })
  let res := snap.descendants.foldl (fun acc node =>
    check_struct_shorthand_initialization
      (check_unnecessary_braces_in_use_statement acc file_id node) file_id node) res
  match snap.to_module_def with
  | none => res
  | some m => m.hir_diagnostics.foldl (fun acc d => acc ++ [sinkHandle db file_id d]) res

/-- The parse-error tier of the result list. -/
def parseTier (snap : Snapshot) : List Diagnostic :=
  snap.parse_errors.map (fun err =>
    { range := err.range, message := "Syntax Error: " ++ err.rendered,
      severity := Severity.Error, fix := none })

/-- The structural-scanner tier: both scanners over every descendant, in
traversal order, starting from an empty buffer. -/
def structuralTier (snap : Snapshot) (file_id : Nat) : List Diagnostic :=
  snap.descendants.foldl (fun acc node =>
    check_struct_shorthand_initialization
      (check_unnecessary_braces_in_use_statement acc file_id node) file_id node) []

/-- The semantic tier: the sink's conversion of the module's raw diagnostic
stream, in emission order; empty when the file resolves to no module. -/
def semanticTier (db : Db) (snap : Snapshot) (file_id : Nat) : List Diagnostic :=
  match snap.to_module_def with
  | none => []
  | some m => m.hir_diagnostics.map (sinkHandle db file_id)

/-- The texts obtained by applying each of a diagnostic's per-file fix edits
to a given original text (empty when the diagnostic has no fix). -/
def appliedFixTexts (text : String) (d : Diagnostic) : List String :=
  match d.fix with
  | none => []
  | some f => f.source_file_edits.map (fun e => TextEdit.apply e.edit text)

/-! Shared lemmas: the accumulator-passing folds of the collector rewritten
as concatenations, so the tiers of the result list can be reasoned about
separately. -/

theorem foldl_emit {α β : Type} (f : List β → α → List β) (u : α → List β)
    (hf : ∀ a x, f a x = a ++ u x) :
    ∀ (l : List α) (acc : List β), l.foldl f acc = acc ++ (l.map u).flatten
  | [], acc => by simp
  | x :: xs, acc => by
      rw [List.foldl_cons, hf, foldl_emit f u hf xs]
      simp

theorem map_singleton_join {α β : Type} (g : α → β) :
    ∀ l : List α, (l.map (fun x => [g x])).flatten = l.map g
  | [] => rfl
  | x :: xs => by simp [map_singleton_join g xs]

/-- The diagnostics one node contributes to the redundant-braces scanner. -/
def bracesNodeDiags (file_id : Nat) (node : SyntaxNode) : List Diagnostic :=
  match node with
  | SyntaxNode.useTreeList use_tree_list =>
    match use_tree_list.useTrees with
    | [single_use_tree] =>
      let range := use_tree_list.range
      let edit :=
        match text_edit_for_remove_unnecessary_braces_with_self_in_use_statement
            single_use_tree with
        | some e => e
        | none =>
          let to_replace := single_use_tree.text
          TextEditBuilder.finish
            (TextEditBuilder.insert (TextEditBuilder.delete [] range) range.start to_replace)
      [{ range := range
         message := "Unnecessary braces in use statement"
         severity := Severity.WeakWarning
         fix := some (SourceChange.source_file_edit ("Remove unnecessary braces")
           ⟨file_id, edit⟩) }]
    | _ => []
  | _ => []

theorem check_braces_eq (acc : List Diagnostic) (file_id : Nat) (node : SyntaxNode) :
    check_unnecessary_braces_in_use_statement acc file_id node
      = acc ++ bracesNodeDiags file_id node := by
  cases node with
  | useTreeList u =>
      obtain ⟨trees, range⟩ := u
      match trees with
      | [] => simp [check_unnecessary_braces_in_use_statement, bracesNodeDiags]
      | [t] => simp [check_unnecessary_braces_in_use_statement, bracesNodeDiags]
      | t1 :: t2 :: ts => simp [check_unnecessary_braces_in_use_statement, bracesNodeDiags]
  | recordLit r => simp [check_unnecessary_braces_in_use_statement, bracesNodeDiags]
  | other => simp [check_unnecessary_braces_in_use_statement, bracesNodeDiags]

/-- The diagnostic one record-field entry contributes to the shorthand
scanner. -/
def shorthandFieldDiag (file_id : Nat) (record_field : RecordField) : List Diagnostic :=
  match record_field.name_ref, record_field.expr with
  | some field_name, some field_expr =>
    if field_name = field_expr then
      let edit := TextEditBuilder.finish
        (TextEditBuilder.insert (TextEditBuilder.delete [] record_field.range)
          record_field.range.start field_name)
      [{ range := record_field.range
         message := "Shorthand struct initialization"
         severity := Severity.WeakWarning
         fix := some (SourceChange.source_file_edit
           ("Use struct shorthand initialization") ⟨file_id, edit⟩) }]
    else []
  | _, _ => []

/-- The diagnostics one node contributes to the shorthand scanner. -/
def shorthandNodeDiags (file_id : Nat) (node : SyntaxNode) : List Diagnostic :=
  match node with
  | SyntaxNode.recordLit record_lit =>
    match record_lit.record_field_list with
    | some record_field_list =>
        (record_field_list.fields.map (shorthandFieldDiag file_id)).flatten
    | none => []
  | _ => []

theorem check_shorthand_eq (acc : List Diagnostic) (file_id : Nat) (node : SyntaxNode) :
    check_struct_shorthand_initialization acc file_id node
      = acc ++ shorthandNodeDiags file_id node := by
  cases node with
  | recordLit r =>
      cases hf : r.record_field_list with
      | none => simp [check_struct_shorthand_initialization, shorthandNodeDiags, hf]
      | some fl =>
          simp only [check_struct_shorthand_initialization, shorthandNodeDiags, hf]
          refine foldl_emit _ (shorthandFieldDiag file_id) ?_ fl.fields acc
          intro a x
          simp only [shorthandFieldDiag]
          cases x.name_ref with
          | none => cases x.expr <;> simp
          | some n =>
              cases x.expr with
              | none => simp
              | some e =>
                  by_cases h : n = e
                  · simp [h]
                  · simp [h]
  | useTreeList u => simp [check_struct_shorthand_initialization, shorthandNodeDiags]
  | other => simp [check_struct_shorthand_initialization, shorthandNodeDiags]

/-- The diagnostics one node contributes to the whole structural traversal:
first the braces scanner, then the shorthand scanner. -/
def nodeDiags (file_id : Nat) (node : SyntaxNode) : List Diagnostic :=
  bracesNodeDiags file_id node ++ shorthandNodeDiags file_id node

theorem structuralTier_eq (snap : Snapshot) (file_id : Nat) :
    structuralTier snap file_id = (snap.descendants.map (nodeDiags file_id)).flatten := by
  unfold structuralTier
  refine (foldl_emit _ (nodeDiags file_id) ?_ snap.descendants []).trans (by simp)
  intro a x
  rw [check_braces_eq, check_shorthand_eq, nodeDiags, List.append_assoc]

theorem diagnostics_eq_tiers (db : Db) (snap : Snapshot) (file_id : Nat) :
    diagnostics db snap file_id
      = parseTier snap ++ structuralTier snap file_id ++ semanticTier db snap file_id := by
  unfold diagnostics
  have hstruct :
      snap.descendants.foldl (fun acc node =>
        check_struct_shorthand_initialization
          (check_unnecessary_braces_in_use_statement acc file_id node) file_id node)
        (parseTier snap)
      = parseTier snap ++ structuralTier snap file_id := by
    rw [structuralTier_eq]
    refine foldl_emit _ (nodeDiags file_id) ?_ snap.descendants (parseTier snap)
    intro a x
    rw [check_braces_eq, check_shorthand_eq, nodeDiags, List.append_assoc]
  cases hm : snap.to_module_def with
  | none =>
      simp only [hm, parseTier, semanticTier]
      rw [show (snap.parse_errors.map (fun err =>
        ({ range := err.range, message := "Syntax Error: " ++ err.rendered,
           severity := Severity.Error, fix := none } : Diagnostic))) = parseTier snap from rfl]
      rw [hstruct, List.append_nil]
  | some m =>
      simp only [hm, semanticTier]
      rw [show (snap.parse_errors.map (fun err =>
        ({ range := err.range, message := "Syntax Error: " ++ err.rendered,
           severity := Severity.Error, fix := none } : Diagnostic))) = parseTier snap from rfl]
      rw [hstruct]
      rw [foldl_emit _ (fun d => [sinkHandle db file_id d]) (fun a d => rfl)
        m.hir_diagnostics (parseTier snap ++ structuralTier snap file_id)]
      rw [map_singleton_join]

theorem sinkHandle_severity (db : Db) (file_id : Nat) (d : HirDiagnostic) :
    (sinkHandle db file_id d).severity = Severity.Error := by
  cases d <;> rfl

theorem bracesNodeDiags_shape (file_id : Nat) (node : SyntaxNode) (d : Diagnostic)
    (hd : d ∈ bracesNodeDiags file_id node) :
    d.severity = Severity.WeakWarning ∧ d.fix.isSome = true := by
  cases node with
  | useTreeList u =>
      obtain ⟨trees, range⟩ := u
      match trees with
      | [] => simp [bracesNodeDiags] at hd
      | [t] =>
          simp only [bracesNodeDiags, List.mem_singleton] at hd
          subst hd
          exact ⟨rfl, rfl⟩
      | t1 :: t2 :: ts => simp [bracesNodeDiags] at hd
  | recordLit r => simp [bracesNodeDiags] at hd
  | other => simp [bracesNodeDiags] at hd

theorem shorthandNodeDiags_shape (file_id : Nat) (node : SyntaxNode) (d : Diagnostic)
    (hd : d ∈ shorthandNodeDiags file_id node) :
    d.severity = Severity.WeakWarning ∧ d.fix.isSome = true := by
  cases node with
  | recordLit r =>
      cases hf : r.record_field_list with
      | none => simp [shorthandNodeDiags, hf] at hd
      | some fl =>
          simp only [shorthandNodeDiags, hf, List.mem_flatten, List.mem_map] at hd
          obtain ⟨block, ⟨x, _, hblock⟩, hmem⟩ := hd
          subst hblock
          simp only [shorthandFieldDiag] at hmem
          cases hn : x.name_ref with
          | none => rw [hn] at hmem; cases x.expr <;> simp at hmem
          | some n =>
              rw [hn] at hmem
              cases he : x.expr with
              | none => rw [he] at hmem; simp at hmem
              | some e =>
                  rw [he] at hmem
                  by_cases h : n = e
                  · subst h
                    simp at hmem
                    subst hmem
                    exact ⟨rfl, rfl⟩
                  · simp [h] at hmem
  | useTreeList u => simp [shorthandNodeDiags] at hd
  | other => simp [shorthandNodeDiags] at hd

theorem append_field_foldl (l : List Name) (fl : RecordFieldListAst) :
    l.foldl (fun a f => RecordFieldListAst.append_field a (Name.render f ++ ": ()")) fl
      = ⟨fl.range, fl.fields ++ l.map (fun f => Name.render f ++ ": ()")⟩ := by
  induction l generalizing fl with
  | nil => cases fl; simp
  | cons f fs ih =>
      rw [List.foldl_cons, ih]
      simp [RecordFieldListAst.append_field]

/-! Concrete inputs used by the claim theorems and witnesses. -/

/-- The single entry `c` of `use a::\x7bc\x7d;` (offsets in that text): the
separator `::` starts at 5, the braced list spans 7..10. -/
def useTreeC : UseTree :=
  { text := "c", parent := some ⟨some 5, 10⟩,
    path := some ⟨some ⟨some SyntaxKind.identKind⟩⟩ }

def useTreeListC : UseTreeList := { useTrees := [useTreeC], range := ⟨7, 10⟩ }

def nodeUseAC : SyntaxNode := SyntaxNode.useTreeList useTreeListC

/-- The single entry `self` of `use a::\x7bself\x7d;`: the separator `::`
starts at 5, the braced list spans 7..13. -/
def useTreeSelf : UseTree :=
  { text := "self", parent := some ⟨some 5, 13⟩,
    path := some ⟨some ⟨some SyntaxKind.selfKw⟩⟩ }

def useTreeListSelf : UseTreeList := { useTrees := [useTreeSelf], range := ⟨7, 13⟩ }

def nodeUseSelf : SyntaxNode := SyntaxNode.useTreeList useTreeListSelf

/-- The record literal `A \x7b 0: 0 \x7d`: one tuple-index field whose name
text and value text are both `0`, spanning offsets 4..8. -/
def tupleIndexRecordNode : SyntaxNode :=
  SyntaxNode.recordLit
    { record_field_list := some
        { fields := [{ name_ref := some "0", expr := some "0", range := ⟨4, 8⟩ }],
          spread := none } }

/-- The missing-fields diagnostic of the in-repo `range_mapping_out_of_macros`
test: the literal `Foo \x7b a: 42 \x7d` sits inside an `id!` macro call in
file 1 at 224..237; the diagnostic is anchored in the expansion pseudo-file,
where the expanded field list `\x7ba:42\x7d` spans 3..9; field `b` is
missing; the reconciled range (original-file coordinates) is 224..233. -/
def macroAnchoredMissingFields : MissingFields :=
  { message := "Missing structure fields:\n- b"
    reconciled := ⟨224, 233⟩
    anchor_file := HirFileId.expansionFile 0
    ast := { range := ⟨3, 9⟩, fields := ["a:42"] }
    missed_fields := [Name.named "b"] }

/-- A missing-fields diagnostic anchored in a real file, with one existing
field and one missing named field (the `\x7b two: 2 \x7d` example). -/
def partialFillMissingFields : MissingFields :=
  { message := "Missing structure fields:\n- one"
    reconciled := ⟨58, 68⟩
    anchor_file := HirFileId.realFile 1
    ast := { range := ⟨68, 78⟩, fields := ["two: 2"] }
    missed_fields := [Name.named "one"] }

/-- A missing-fields diagnostic where one of the missing fields is the tuple
index `0`. -/
def tupleMissMissingFields : MissingFields :=
  { message := "Missing structure fields:\n- 0"
    reconciled := ⟨10, 20⟩
    anchor_file := HirFileId.realFile 1
    ast := { range := ⟨12, 20⟩, fields := [] }
    missed_fields := [Name.tupleIndex 0, Name.named "x"] }

def defaultDb : Db := ⟨fun _ => 0, fun _ => ["main.rs"]⟩

/-- A snapshot whose module emits one semantic diagnostic of an unregistered
kind. -/
def unhandledSnap : Snapshot :=
  ⟨[], [], some ⟨[HirDiagnostic.unhandled ("no impl") ⟨5, 9⟩]⟩⟩

/-! The claim theorems. -/

/-- C1: claimed — for a semantic diagnostic anchored inside a macro
expansion, the synthesized fix's text-edit offsets are expressed in the
original (requested) file's coordinates.  Refuted by evaluating the
missing-fields handler on the configuration of the in-repo
`range_mapping_out_of_macros` test: the handler attaches the requested file
id (1) to the edit, but the edit's delete range is the expansion-local field
list range 3..9, while the reconciled original-file range of the diagnostic
is 224..233 — the edit even ends before the reconciled range starts, so its
offsets are the expansion's, not the original file's. -/
theorem missing_fields_fix_keeps_expansion_coordinates :
    macroAnchoredMissingFields.anchor_file = HirFileId.expansionFile 0 ∧
    (handleMissingFields 1 macroAnchoredMissingFields).range = ⟨224, 233⟩ ∧
    (handleMissingFields 1 macroAnchoredMissingFields).fix
      = some { label := "Fill struct fields"
               source_file_edits := [⟨1, ⟨[⟨⟨3, 9⟩, "\x7ba:42, b: ()\x7d"⟩]⟩⟩]
               file_system_edits := []
               cursor_position := none } ∧
    macroAnchoredMissingFields.ast.range = ⟨3, 9⟩ ∧
    macroAnchoredMissingFields.ast.range.stop
      < macroAnchoredMissingFields.reconciled.start := by
  decide

/-- C2: claimed — the redundant-field-binding scanner never flags a
tuple-index field such as `0: 0`.  Refuted by evaluating the scanner on the
record literal `A \x7b 0: 0 \x7d`: the field's name text and value text are
both `0`, the scanner has no tuple-index guard, so it emits a diagnostic
whose fix rewrites the literal to `A \x7b 0 \x7d`. -/
theorem struct_shorthand_flags_tuple_index_field :
    (check_struct_shorthand_initialization [] 0 tupleIndexRecordNode).length = 1 ∧
    (check_struct_shorthand_initialization [] 0 tupleIndexRecordNode).map
      (appliedFixTexts ("A \x7b 0: 0 \x7d")) = [["A \x7b 0 \x7d"]] := by
  decide

/-- C3: for every unresolved-module diagnostic, the attached fix is exactly
one file-creation request — no text edits — whose target path is the
candidate module file name joined to the parent directory of the
diagnostic's original file. -/
theorem unresolved_module_fix_is_single_create_file (db : Db) (file_id : Nat)
    (d : UnresolvedModule) :
    ∃ fix, (sinkHandle db file_id (HirDiagnostic.unresolvedModule d)).fix = some fix ∧
      fix.source_file_edits = [] ∧
      fix.file_system_edits
        = [FileSystemEdit.createFile (db.file_source_root d.original_file)
            (((relativePathParent (db.file_relative_path d.original_file)).getD [])
              ++ [d.candidate])] ∧
      fix.label = "Create module" :=
  ⟨_, rfl, rfl, rfl, rfl⟩

/-- C5: a missing-fields diagnostic in which at least one missing field is a
positional (tuple-index) field gets no fix at all. -/
theorem missing_fields_declines_on_tuple_index (file_id : Nat) (d : MissingFields)
    (h : ∃ f ∈ d.missed_fields, (Name.as_tuple_index f).isSome = true) :
    (handleMissingFields file_id d).fix = none := by
  have hany : d.missed_fields.any (fun f => (Name.as_tuple_index f).isSome) = true := by
    rw [List.any_eq_true]
    obtain ⟨f, hf, hs⟩ := h
    exact ⟨f, hf, hs⟩
  unfold handleMissingFields
  simp [hany]

/-- C5 witness: on a diagnostic missing the tuple field `0` and the named
field `x`, the handler produces no fix. -/
theorem missing_fields_declines_on_tuple_index_witness :
    (handleMissingFields 0 tupleMissMissingFields).fix = none :=
  missing_fields_declines_on_tuple_index 0 tupleMissMissingFields (by decide)

/-- C7: the collected list is the concatenation, in production order, of the
parse errors, then the structural-scanner diagnostics of one tree traversal,
then the semantic-sink diagnostics. -/
theorem diagnostics_are_parse_then_structural_then_semantic (db : Db) (snap : Snapshot)
    (file_id : Nat) :
    diagnostics db snap file_id
      = parseTier snap ++ structuralTier snap file_id ++ semanticTier db snap file_id :=
  diagnostics_eq_tiers db snap file_id

/-- C8: a semantic diagnostic of a kind with no registered handler is
converted by the sink's default handler to a diagnostic with the raw
message, the reconciled range, severity `Error` and no fix, and that
diagnostic appears in the collected list. -/
theorem unhandled_kind_default_conversion (db : Db) (snap : Snapshot) (file_id : Nat)
    (m : ModuleDef) (message : String) (reconciled : TextRange)
    (hm : snap.to_module_def = some m)
    (hd : HirDiagnostic.unhandled message reconciled ∈ m.hir_diagnostics) :
    sinkHandle db file_id (HirDiagnostic.unhandled message reconciled)
      = { range := reconciled, message := message, severity := Severity.Error,
          fix := none } ∧
    ({ range := reconciled, message := message, severity := Severity.Error,
       fix := none : Diagnostic } ∈ diagnostics db snap file_id) := by
  refine ⟨rfl, ?_⟩
  rw [diagnostics_eq_tiers]
  refine List.mem_append.2 (Or.inr ?_)
  unfold semanticTier
  rw [hm]
  exact List.mem_map.2 ⟨_, hd, rfl⟩

/-- C8 witness: the unregistered-kind diagnostic of `unhandledSnap` surfaces
with its raw message, its reconciled range 5..9, severity `Error` and no
fix. -/
theorem unhandled_kind_default_conversion_witness :
    ({ range := ⟨5, 9⟩, message := "no impl", severity := Severity.Error,
       fix := none : Diagnostic } ∈ diagnostics defaultDb unhandledSnap 0) :=
  (unhandled_kind_default_conversion defaultDb unhandledSnap 0
    ⟨[HirDiagnostic.unhandled ("no impl") ⟨5, 9⟩]⟩ ("no impl") ⟨5, 9⟩ rfl
    (List.mem_singleton_self _)).2

/-- C9: the collection is deterministic — it is a function of the snapshot
and database alone, so two runs over equal inputs give equal lists. -/
theorem diagnostics_deterministic (db1 db2 : Db) (snap1 snap2 : Snapshot) (file_id : Nat)
    (hdb : db1 = db2) (hsnap : snap1 = snap2) :
    diagnostics db1 snap1 file_id = diagnostics db2 snap2 file_id := by
  subst hdb
  subst hsnap
  rfl

/-- C9 witness: two runs over the same concrete snapshot agree. -/
theorem diagnostics_deterministic_witness :
    diagnostics defaultDb unhandledSnap 0 = diagnostics defaultDb unhandledSnap 0 :=
  diagnostics_deterministic defaultDb defaultDb unhandledSnap unhandledSnap 0 rfl rfl

/-- C4: when every missing field is named, the fix synthesizes the field
list with one `field: ()` initializer appended per missing field — the
already-present entries kept verbatim and in order — and the edit is the
structural diff of the synthesized list against the original one. -/
theorem missing_fields_fix_appends_unit_fields (file_id : Nat) (d : MissingFields)
    (h : ∀ f ∈ d.missed_fields, Name.as_tuple_index f = none) :
    ∃ synthesized : RecordFieldListAst,
      synthesized.range = d.ast.range ∧
      synthesized.fields
        = d.ast.fields ++ d.missed_fields.map (fun f => Name.render f ++ ": ()") ∧
      (handleMissingFields file_id d).fix
        = some (SourceChange.source_file_edit_from ("Fill struct fields") file_id
            (structuralDiff d.ast synthesized)) := by
  have hany : d.missed_fields.any (fun f => (Name.as_tuple_index f).isSome) = false := by
    simp only [List.any_eq_false]
    intro f hf
    simp [h f hf]
  refine ⟨d.missed_fields.foldl
    (fun fl f => RecordFieldListAst.append_field fl (Name.render f ++ ": ()")) d.ast,
    ?_, ?_, ?_⟩
  · rw [append_field_foldl]
  · rw [append_field_foldl]
  · unfold handleMissingFields
    simp [hany]

/-- C4 witness: on the `\x7b two: 2 \x7d` diagnostic with named field `one`
missing, the synthesized list is `two: 2, one: ()` and the fix is its
structural diff against the original. -/
theorem missing_fields_fix_appends_unit_fields_witness :
    ∃ synthesized : RecordFieldListAst,
      synthesized.range = partialFillMissingFields.ast.range ∧
      synthesized.fields
        = partialFillMissingFields.ast.fields
          ++ partialFillMissingFields.missed_fields.map (fun f => Name.render f ++ ": ()") ∧
      (handleMissingFields 1 partialFillMissingFields).fix
        = some (SourceChange.source_file_edit_from ("Fill struct fields") 1
            (structuralDiff partialFillMissingFields.ast synthesized)) :=
  missing_fields_fix_appends_unit_fields 1 partialFillMissingFields (by decide)

/-- C10: every parse-error diagnostic has severity `Error` and no fix, every
structural-scanner diagnostic has severity `WeakWarning` and carries a fix,
every sink diagnostic — kind-specific handlers included — has severity
`Error`; so everything in the returned list is an `Error` except the
structural ones, which are weak warnings with fixes. -/
theorem diagnostics_severity_partition (db : Db) (snap : Snapshot) (file_id : Nat) :
    (∀ d ∈ parseTier snap, d.severity = Severity.Error ∧ d.fix = none) ∧
    (∀ d ∈ structuralTier snap file_id,
        d.severity = Severity.WeakWarning ∧ d.fix.isSome = true) ∧
    (∀ d ∈ semanticTier db snap file_id, d.severity = Severity.Error) ∧
    (∀ d ∈ diagnostics db snap file_id,
        d.severity = Severity.Error
          ∨ (d.severity = Severity.WeakWarning ∧ d.fix.isSome = true)) := by
  have hparse : ∀ d ∈ parseTier snap, d.severity = Severity.Error ∧ d.fix = none := by
    intro d hd
    unfold parseTier at hd
    obtain ⟨err, _, rfl⟩ := List.mem_map.1 hd
    exact ⟨rfl, rfl⟩
  have hstruct : ∀ d ∈ structuralTier snap file_id,
      d.severity = Severity.WeakWarning ∧ d.fix.isSome = true := by
    intro d hd
    rw [structuralTier_eq] at hd
    obtain ⟨block, hblock, hdmem⟩ := List.mem_flatten.1 hd
    obtain ⟨n, _, rfl⟩ := List.mem_map.1 hblock
    rcases List.mem_append.1 hdmem with hmem | hmem
    · exact bracesNodeDiags_shape file_id n d hmem
    · exact shorthandNodeDiags_shape file_id n d hmem
  have hsem : ∀ d ∈ semanticTier db snap file_id, d.severity = Severity.Error := by
    intro d hd
    unfold semanticTier at hd
    cases hm : snap.to_module_def with
    | none => rw [hm] at hd; simp at hd
    | some m =>
        rw [hm] at hd
        obtain ⟨x, _, rfl⟩ := List.mem_map.1 hd
        exact sinkHandle_severity db file_id x
  refine ⟨hparse, hstruct, hsem, ?_⟩
  intro d hd
  rw [diagnostics_eq_tiers] at hd
  rcases List.mem_append.1 hd with hmem | hmem
  · rcases List.mem_append.1 hmem with h1 | h2
    · exact Or.inl (hparse d h1).1
    · exact Or.inr (hstruct d h2)
  · exact Or.inl (hsem d hmem)

/-- C10 witness: the semantic diagnostic of `unhandledSnap` — a member of
the collected list — satisfies the partition (it is an `Error`). -/
theorem diagnostics_severity_partition_witness :
    ({ range := ⟨5, 9⟩, message := "no impl", severity := Severity.Error,
       fix := none : Diagnostic }).severity = Severity.Error
      ∨ (({ range := ⟨5, 9⟩, message := "no impl", severity := Severity.Error,
            fix := none : Diagnostic }).severity = Severity.WeakWarning
          ∧ ({ range := ⟨5, 9⟩, message := "no impl", severity := Severity.Error,
               fix := none : Diagnostic }).fix.isSome = true) :=
  (diagnostics_severity_partition defaultDb unhandledSnap 0).2.2.2 _ (by decide)

/-- C6: the redundant-grouping scanner triggers exactly on a use-tree list
with exactly one entry (never zero, never two or more); the fix replaces the
braced range with the single entry's text — for a `self` entry it instead
deletes from the preceding path separator to the end of the list — so
`use a::\x7bc\x7d;` becomes `use a::c;` and `use a::\x7bself\x7d;` becomes
`use a;`. -/
theorem unnecessary_braces_trigger_and_fix (acc : List Diagnostic) (file_id : Nat)
    (node : SyntaxNode) :
    (check_unnecessary_braces_in_use_statement acc file_id node ≠ acc
        ↔ ∃ u t, node = SyntaxNode.useTreeList u ∧ u.useTrees = [t]) ∧
    (∀ u t, node = SyntaxNode.useTreeList u → u.useTrees = [t] →
      text_edit_for_remove_unnecessary_braces_with_self_in_use_statement t = none →
      u.range.start < u.range.stop →
      check_unnecessary_braces_in_use_statement acc file_id node
        = acc ++ [{ range := u.range
                    message := "Unnecessary braces in use statement"
                    severity := Severity.WeakWarning
                    fix := some (SourceChange.source_file_edit ("Remove unnecessary braces")
                      ⟨file_id,
                       ⟨[⟨⟨u.range.start, u.range.start⟩, t.text⟩, ⟨u.range, ""⟩]⟩⟩) }]) ∧
    (∀ u t par s, node = SyntaxNode.useTreeList u → u.useTrees = [t] →
      t.parent = some par →
      (∃ p seg, t.path = some p ∧ p.segment = some seg ∧
        seg.firstChildOrTokenKind = some SyntaxKind.selfKw) →
      par.prevSiblingOrTokenStart = some s →
      check_unnecessary_braces_in_use_statement acc file_id node
        = acc ++ [{ range := u.range
                    message := "Unnecessary braces in use statement"
                    severity := Severity.WeakWarning
                    fix := some (SourceChange.source_file_edit ("Remove unnecessary braces")
                      ⟨file_id, TextEdit.delete ⟨s, par.stop⟩⟩) }]) ∧
    (check_unnecessary_braces_in_use_statement [] 0 nodeUseAC).map
      (appliedFixTexts ("use a::\x7bc\x7d;")) = [["use a::c;"]] ∧
    (check_unnecessary_braces_in_use_statement [] 0 nodeUseSelf).map
      (appliedFixTexts ("use a::\x7bself\x7d;")) = [["use a;"]] := by
  refine ⟨⟨?_, ?_⟩, ?_, ?_, by decide, by decide⟩
  · intro hne
    rw [check_braces_eq] at hne
    cases node with
    | useTreeList u =>
        obtain ⟨trees, range⟩ := u
        rcases trees with _ | ⟨t, _ | ⟨t2, ts⟩⟩
        · simp [bracesNodeDiags] at hne
        · exact ⟨⟨[t], range⟩, t, rfl, rfl⟩
        · simp [bracesNodeDiags] at hne
    | recordLit r => simp [bracesNodeDiags] at hne
    | other => simp [bracesNodeDiags] at hne
  · rintro ⟨u, t, rfl, htrees⟩
    rw [check_braces_eq]
    intro hEq
    have hlen := congrArg List.length hEq
    obtain ⟨trees, range⟩ := u
    replace htrees : trees = [t] := htrees
    subst htrees
    simp [bracesNodeDiags] at hlen
  · rintro u t rfl htrees hself hlt
    have hkey : atomKeyLt ⟨⟨u.range.start, u.range.start⟩, t.text⟩ ⟨u.range, ""⟩ = true := by
      exact decide_eq_true (Or.inr ⟨rfl, hlt⟩)
    have hfin : TextEditBuilder.finish
        (TextEditBuilder.insert (TextEditBuilder.delete [] u.range) u.range.start t.text)
        = ⟨[⟨⟨u.range.start, u.range.start⟩, t.text⟩, ⟨u.range, ""⟩]⟩ := by
      simp [TextEditBuilder.finish, TextEditBuilder.insert, TextEditBuilder.delete,
        insertAtom, hkey]
    simp only [check_unnecessary_braces_in_use_statement, htrees, hself, hfin]
  · rintro u t par s rfl htrees hpar ⟨p, seg, hp, hseg, hkind⟩ hprev
    have hhelper : text_edit_for_remove_unnecessary_braces_with_self_in_use_statement t
        = some (TextEdit.delete ⟨s, par.stop⟩) := by
      simp [text_edit_for_remove_unnecessary_braces_with_self_in_use_statement,
        hpar, hp, hseg, hkind, hprev]
    simp only [check_unnecessary_braces_in_use_statement, htrees, hhelper]

/-- C6 witness: the scanner fires on the one-entry node of
`use a::\x7bc\x7d;` and stays silent on a node that is not a use-tree
list. -/
theorem unnecessary_braces_trigger_and_fix_witness :
    check_unnecessary_braces_in_use_statement [] 0 nodeUseAC ≠ [] ∧
    check_unnecessary_braces_in_use_statement [] 0 SyntaxNode.other = [] := by
  constructor
  · exact (unnecessary_braces_trigger_and_fix [] 0 nodeUseAC).1.2
      ⟨useTreeListC, useTreeC, rfl, rfl⟩
  · by_contra hne
    obtain ⟨u, t, hu, _⟩ :=
      (unnecessary_braces_trigger_and_fix [] 0 SyntaxNode.other).1.1 hne
    exact SyntaxNode.noConfusion hu

end RaIde
